import Mathlib

/-!
Shallow embedding of the football-league-manager domain model
(`js/classes/Player.js`, `Team.js`, `League.js`).

JavaScript objects become Lean structures; in-place mutation becomes
explicit state passing (methods return the updated value, paired with the
boolean the JS method returns where it returns one).  JS numbers holding
integer quantities are modelled as `Int`.  `Array.prototype.findIndex`
(returning `-1` on failure) is modelled as an `Option Nat`-valued search,
`Array.prototype.find` as an `Option`-valued search, and `splice(i, 1)` as
`List.eraseIdx`.  `new Date()` in `recordMatch` reads the ambient clock,
so the embedding passes the current time in as an explicit argument.
-/

/-- JS `Array.prototype.findIndex`: index of the first element satisfying
`p`, `none` standing for JS's `-1`. -/
def jsFindIndex (p : α → Bool) : List α → Option Nat
  | [] => none
  | x :: xs => if p x then some 0 else (jsFindIndex p xs).map (· + 1)

/-- JS `Array.prototype.find`: the first element satisfying `p`, `none`
standing for JS's `undefined` (which the source coalesces to `null`). -/
def jsFind (p : α → Bool) : List α → Option α
  | [] => none
  | x :: xs => if p x then some x else jsFind p xs

/-- Replacing the element at index `i` by the result of `f` (out-of-range
indices leave the list unchanged).  This models an in-place mutation of the
object stored at index `i` of a JS array. -/
def modifyAt (xs : List α) (i : Nat) (f : α → α) : List α :=
  match xs, i with
  | [], _ => []
  | x :: xs, 0 => f x :: xs
  | x :: xs, i + 1 => x :: modifyAt xs i f

/-- The `Player` class: identity and attribute fields, the three skills,
the derived `overallRating`, and the status fields. -/
structure Player where
  name : String
  position : String
  age : Int
  nationality : String
  jerseyNumber : Int
  pace : Int
  shooting : Int
  passing : Int
  overallRating : Int
  isInjured : Bool
  yellowCards : Int
  redCards : Int
deriving DecidableEq

/-- Source `Player.validateAttribute(value)`: `Math.max(1, Math.min(10, value))`. -/
def Player.validateAttribute (value : Int) : Int :=
  max 1 (min 10 value)

/-- Source `Player.calculateOverallRating()`:
`Math.round((this.pace + this.shooting + this.passing) / 3)`.
JS `Math.round x = ⌊x + 1/2⌋` (ties toward `+∞`), and for an integer sum
`s`, `⌊s/3 + 1/2⌋ = ⌊(2*s + 3)/6⌋`, which is the floor division
`Int.fdiv (2*s + 3) 6`. -/
def Player.calculateOverallRating (pace shooting passing : Int) : Int :=
  Int.fdiv (2 * (pace + shooting + passing) + 3) 6

/-- The `Player` constructor: skills are clamped on write and
`overallRating` is computed from the clamped values; status fields start
at `false` / `0` / `0`. -/
def Player.construct (name position : String) (pace shooting passing : Int)
    (age : Int) (nationality : String) (jerseyNumber : Int) : Player :=
  let p := Player.validateAttribute pace
  let s := Player.validateAttribute shooting
  let q := Player.validateAttribute passing
  { name := name
    position := position
    age := age
    nationality := nationality
    jerseyNumber := jerseyNumber
    pace := p
    shooting := s
    passing := q
    overallRating := Player.calculateOverallRating p s q
    isInjured := false
    yellowCards := 0
    redCards := 0 }

/-- Source `Player.updateStats(newPace, newShooting, newPassing)`: clamp and
overwrite all three skills, then recompute `overallRating`. -/
def Player.updateStats (pl : Player) (newPace newShooting newPassing : Int) : Player :=
  let p := Player.validateAttribute newPace
  let s := Player.validateAttribute newShooting
  let q := Player.validateAttribute newPassing
  { pl with
    pace := p
    shooting := s
    passing := q
    overallRating := Player.calculateOverallRating p s q }

/-- Source `Player.setInjuryStatus(isInjured)`. -/
def Player.setInjuryStatus (pl : Player) (isInjured : Bool) : Player :=
  { pl with isInjured := isInjured }

/-- Source `Player.addCard(cardType)`: a yellow card increments the yellow tally
and, when the tally reaches 2, converts into a red card and resets the
tally; a red card increments the red tally; any other string is a no-op. -/
def Player.addCard (pl : Player) (cardType : String) : Player :=
  if cardType == "yellow" then
    let y := pl.yellowCards + 1
    if y ≥ 2 then { pl with yellowCards := 0, redCards := pl.redCards + 1 }
    else { pl with yellowCards := y }
  else if cardType == "red" then
    { pl with redCards := pl.redCards + 1 }
  else
    pl

/-- The `stats` object inside `Player.getPlayerInfo()`. -/
structure PlayerSkills where
  pace : Int
  shooting : Int
  passing : Int
  overall : Int
deriving DecidableEq

/-- The `status` object inside `Player.getPlayerInfo()`. -/
structure PlayerStatus where
  isInjured : Bool
  yellowCards : Int
  redCards : Int
deriving DecidableEq

/-- The snapshot returned by `Player.getPlayerInfo()`. -/
structure PlayerInfo where
  name : String
  position : String
  age : Int
  nationality : String
  jerseyNumber : Int
  stats : PlayerSkills
  status : PlayerStatus
deriving DecidableEq

/-- Source `Player.getPlayerInfo()`: a pure projection of the player's fields. -/
def Player.getPlayerInfo (pl : Player) : PlayerInfo :=
  { name := pl.name
    position := pl.position
    age := pl.age
    nationality := pl.nationality
    jerseyNumber := pl.jerseyNumber
    stats :=
      { pace := pl.pace
        shooting := pl.shooting
        passing := pl.passing
        overall := pl.overallRating }
    status :=
      { isInjured := pl.isInjured
        yellowCards := pl.yellowCards
        redCards := pl.redCards } }

/-- The `Team` class: identity fields, the ordered roster, and the three
aggregate statistics. -/
structure Team where
  name : String
  city : String
  stadium : String
  players : List Player
  points : Int
  goalsFor : Int
  goalsAgainst : Int
deriving DecidableEq

/-- The `Team` constructor: empty roster, all statistics zero. -/
def Team.construct (name city stadium : String) : Team :=
  { name := name
    city := city
    stadium := stadium
    players := []
    points := 0
    goalsFor := 0
    goalsAgainst := 0 }

/-- Source `Team.addPlayer(player)`: appends to the roster and returns `true`.
The source's `instanceof Player` guard always passes for a well-typed
`Player` argument, so the `false` branch is unreachable here. -/
def Team.addPlayer (t : Team) (player : Player) : Bool × Team :=
  (true, { t with players := t.players ++ [player] })

/-- Source `Team.removePlayer(playerName)`: `findIndex` by name, then
`splice(index, 1)`; returns `false` and leaves the roster alone when no
player has that name. -/
def Team.removePlayer (t : Team) (playerName : String) : Bool × Team :=
  match jsFindIndex (fun p => p.name == playerName) t.players with
  | none => (false, t)
  | some index => (true, { t with players := t.players.eraseIdx index })

/-- Source `Team.getPlayer(playerName)`: first roster member with that name. -/
def Team.getPlayer (t : Team) (playerName : String) : Option Player :=
  jsFind (fun p => p.name == playerName) t.players

/-- Source `Team.updateStats(goalsScored, goalsConceded, pointsEarned)`: additive
accumulation into the three statistics. -/
def Team.updateStats (t : Team) (goalsScored goalsConceded pointsEarned : Int) : Team :=
  { t with
    goalsFor := t.goalsFor + goalsScored
    goalsAgainst := t.goalsAgainst + goalsConceded
    points := t.points + pointsEarned }

/-- The `stats` object inside `Team.getTeamInfo()`, including the derived
`goalDifference`. -/
structure TeamStats where
  points : Int
  goalsFor : Int
  goalsAgainst : Int
  goalDifference : Int
deriving DecidableEq

/-- The snapshot returned by `Team.getTeamInfo()`. -/
structure TeamInfo where
  name : String
  city : String
  stadium : String
  players : List PlayerInfo
  stats : TeamStats
deriving DecidableEq

/-- Source `Team.getTeamInfo()`: a pure projection; `goalDifference` is computed
on demand as `goalsFor - goalsAgainst`. -/
def Team.getTeamInfo (t : Team) : TeamInfo :=
  { name := t.name
    city := t.city
    stadium := t.stadium
    players := t.players.map Player.getPlayerInfo
    stats :=
      { points := t.points
        goalsFor := t.goalsFor
        goalsAgainst := t.goalsAgainst
        goalDifference := t.goalsFor - t.goalsAgainst } }

/-- One entry of the `matches` log pushed by `League.recordMatch`; the
`date` field holds the timestamp taken from the clock at the call. -/
structure MatchRecord where
  homeTeam : String
  awayTeam : String
  homeGoals : Int
  awayGoals : Int
  date : Nat
deriving DecidableEq

/-- The `League` class: identity fields, the ordered team list, and the
append-only match log. -/
structure League where
  name : String
  country : String
  teams : List Team
  «matches» : List MatchRecord
deriving DecidableEq

/-- The `League` constructor: no teams, no matches. -/
def League.construct (name country : String) : League :=
  { name := name, country := country, teams := [], «matches» := [] }

/-- Source `League.addTeam(team)`: appends and returns `true` (the `instanceof
Team` guard always passes for a well-typed `Team`). -/
def League.addTeam (l : League) (team : Team) : Bool × League :=
  (true, { l with teams := l.teams ++ [team] })

/-- Source `League.removeTeam(teamName)`: `findIndex` by name then
`splice(index, 1)`; `false` and no change when the name matches no team. -/
def League.removeTeam (l : League) (teamName : String) : Bool × League :=
  match jsFindIndex (fun t => t.name == teamName) l.teams with
  | none => (false, l)
  | some index => (true, { l with teams := l.teams.eraseIdx index })

/-- Source `League.getTeam(teamName)`: first team with that name. -/
def League.getTeam (l : League) (teamName : String) : Option Team :=
  jsFind (fun t => t.name == teamName) l.teams

/-- Source `League.recordMatch(homeTeamName, awayTeamName, homeGoals, awayGoals)`.
The source resolves both names with `getTeam` and then mutates the two
returned team objects in place; since those objects live inside
`this.teams`, the embedding locates them by index (the first match, as
`find`/`findIndex` agree on it) and updates the list at those indices in
the same order as the source.  When both names resolve to the same first
team the two updates land on the same entry, exactly as the aliased JS
mutations do. -/
def League.recordMatch (l : League) (homeTeamName awayTeamName : String)
    (homeGoals awayGoals : Int) (now : Nat) : Bool × League :=
  match jsFindIndex (fun t => t.name == homeTeamName) l.teams,
        jsFindIndex (fun t => t.name == awayTeamName) l.teams with
  | some hi, some ai =>
      let homePoints : Int :=
        if homeGoals > awayGoals then 3 else if homeGoals < awayGoals then 0 else 1
      let awayPoints : Int :=
        if homeGoals > awayGoals then 0 else if homeGoals < awayGoals then 3 else 1
      let teams1 := modifyAt l.teams hi
        (fun t => t.updateStats homeGoals awayGoals homePoints)
      let teams2 := modifyAt teams1 ai
        (fun t => t.updateStats awayGoals homeGoals awayPoints)
      (true,
        { l with
          teams := teams2
          «matches» := l.«matches» ++
            [{ homeTeam := homeTeamName
               awayTeam := awayTeamName
               homeGoals := homeGoals
               awayGoals := awayGoals
               date := now }] })
  | _, _ => (false, l)

/-- The comparator passed to `sort` in `League.getStandings`:
`b.stats.points - a.stats.points` when the points differ, otherwise
`b.stats.goalDifference - a.stats.goalDifference`. -/
def standingsCompare (a b : TeamInfo) : Int :=
  if b.stats.points ≠ a.stats.points then b.stats.points - a.stats.points
  else b.stats.goalDifference - a.stats.goalDifference

/-- Source `a` may be placed before `b` by the standings sort: the comparator is
non-positive.  ECMAScript `Array.prototype.sort` is required to be stable,
and for a consistent comparator the stably sorted output is unique, so the
embedding may use any stable sorting algorithm; insertion sort is one. -/
def standingsLE (a b : TeamInfo) : Prop :=
  standingsCompare a b ≤ 0

instance : DecidableRel standingsLE :=
  fun a b => inferInstanceAs (Decidable (standingsCompare a b ≤ 0))

/-- Source `League.getStandings()`: snapshots of all teams, stably sorted by the
comparator (points descending, then goal difference descending). -/
def League.getStandings (l : League) : List TeamInfo :=
  List.insertionSort standingsLE (l.teams.map Team.getTeamInfo)

/-- Source `League.getLeagueInfo()`. -/
structure LeagueInfo where
  name : String
  country : String
  teams : List TeamInfo
  «matches» : List MatchRecord
  standings : List TeamInfo
deriving DecidableEq

/-- Source `League.getLeagueInfo()`: a pure projection plus the standings. -/
def League.getLeagueInfo (l : League) : LeagueInfo :=
  { name := l.name
    country := l.country
    teams := l.teams.map Team.getTeamInfo
    «matches» := l.«matches»
    standings := l.getStandings }

/-! ## Helper lemmas about the list primitives -/

theorem jsFindIndex_some_getElem {p : α → Bool} :
    ∀ {xs : List α} {i : Nat}, jsFindIndex p xs = some i →
      ∃ x, xs[i]? = some x ∧ p x = true := by
  intro xs
  induction xs with
  | nil => intro i h; simp [jsFindIndex] at h
  | cons x xs ih =>
    intro i h
    unfold jsFindIndex at h
    by_cases hp : p x = true
    · rw [if_pos hp] at h
      obtain rfl : (0 : Nat) = i := Option.some.inj h
      exact ⟨x, by simp, hp⟩
    · rw [if_neg hp] at h
      rcases Option.map_eq_some'.mp h with ⟨j, hj, rfl⟩
      rcases ih hj with ⟨y, hy, hpy⟩
      exact ⟨y, by simpa using hy, hpy⟩

theorem jsFindIndex_eq_none_iff {p : α → Bool} {xs : List α} :
    jsFindIndex p xs = none ↔ ∀ x ∈ xs, p x = false := by
  induction xs with
  | nil => simp [jsFindIndex]
  | cons x xs ih =>
    by_cases hp : p x = true
    · simp [jsFindIndex, hp]
    · simp only [Bool.not_eq_true] at hp
      simp [jsFindIndex, hp, ih]

theorem jsFind_eq_none_iff {p : α → Bool} {xs : List α} :
    jsFind p xs = none ↔ ∀ x ∈ xs, p x = false := by
  induction xs with
  | nil => simp [jsFind]
  | cons x xs ih =>
    by_cases hp : p x = true
    · simp [jsFind, hp]
    · simp only [Bool.not_eq_true] at hp
      simp [jsFind, hp, ih]

theorem getElem?_modifyAt_self (f : α → α) :
    ∀ (xs : List α) (i : Nat), (modifyAt xs i f)[i]? = (xs[i]?).map f := by
  intro xs
  induction xs with
  | nil => intro i; simp [modifyAt]
  | cons x xs ih =>
    intro i
    cases i with
    | zero => simp [modifyAt]
    | succ j => simpa [modifyAt] using ih j

theorem getElem?_modifyAt_ne (f : α → α) :
    ∀ (xs : List α) (i j : Nat), i ≠ j → (modifyAt xs i f)[j]? = xs[j]? := by
  intro xs
  induction xs with
  | nil => intro i j _; simp [modifyAt]
  | cons x xs ih =>
    intro i j hne
    cases i with
    | zero =>
      cases j with
      | zero => exact absurd rfl hne
      | succ k => simp [modifyAt]
    | succ i' =>
      cases j with
      | zero => simp [modifyAt]
      | succ k =>
        simpa [modifyAt] using ih i' k (fun h => hne (by rw [h]))

theorem length_modifyAt (f : α → α) :
    ∀ (xs : List α) (i : Nat), (modifyAt xs i f).length = xs.length := by
  intro xs
  induction xs with
  | nil => intro i; simp [modifyAt]
  | cons x xs ih =>
    intro i
    cases i with
    | zero => simp [modifyAt]
    | succ j => simpa [modifyAt] using ih j

theorem jsFindIndex_append_last {p : α → Bool} {y : α} (hy : p y = true) :
    ∀ {xs : List α}, (∀ x ∈ xs, p x = false) →
      jsFindIndex p (xs ++ [y]) = some xs.length := by
  intro xs
  induction xs with
  | nil => intro _; simp [jsFindIndex, hy]
  | cons x xs ih =>
    intro h
    have hx : p x = false := h x (by simp)
    rw [List.cons_append]
    unfold jsFindIndex
    rw [if_neg (by simp [hx]), ih (fun z hz => h z (by simp [hz]))]
    rfl

theorem eraseIdx_append_last (y : α) :
    ∀ (xs : List α), (xs ++ [y]).eraseIdx xs.length = xs := by
  intro xs
  induction xs with
  | nil => simp
  | cons x xs ih => simp [List.eraseIdx, ih]

/-! ## C5: the clamp -/

/-- C5: for every skill input `v`, the clamp applied on every skill write
(`Player` construction and `updateStats`) yields a value in `[1, 10]`, and
the clamp is idempotent: `clamp (clamp v) = clamp v`. -/
theorem validateAttribute_spec :
    (∀ v : Int,
      1 ≤ Player.validateAttribute v ∧ Player.validateAttribute v ≤ 10 ∧
      Player.validateAttribute (Player.validateAttribute v) = Player.validateAttribute v) ∧
    (∀ (nm pos : String) (pa sh ps ag : Int) (na : String) (jn : Int),
      (Player.construct nm pos pa sh ps ag na jn).pace = Player.validateAttribute pa ∧
      (Player.construct nm pos pa sh ps ag na jn).shooting = Player.validateAttribute sh ∧
      (Player.construct nm pos pa sh ps ag na jn).passing = Player.validateAttribute ps) ∧
    (∀ (pl : Player) (a b c : Int),
      (pl.updateStats a b c).pace = Player.validateAttribute a ∧
      (pl.updateStats a b c).shooting = Player.validateAttribute b ∧
      (pl.updateStats a b c).passing = Player.validateAttribute c) := by
  refine ⟨fun v => ?_, fun nm pos pa sh ps ag na jn => ⟨rfl, rfl, rfl⟩,
    fun pl a b c => ⟨rfl, rfl, rfl⟩⟩
  simp only [Player.validateAttribute]
  omega

/-! ## C6: card bookkeeping -/

/-- C6: `addCard "yellow"` increments the yellow tally and, at 2, converts
it into one red card and resets the tally; `addCard "red"` increments the
red tally directly.  Consequently a fresh player receiving two yellows ends
with `yellowCards = 0, redCards = 1`, and one yellow gives `1` and `0`. -/
theorem addCard_spec :
    (∀ pl : Player,
      (pl.addCard "yellow").yellowCards =
        (if pl.yellowCards + 1 ≥ 2 then 0 else pl.yellowCards + 1) ∧
      (pl.addCard "yellow").redCards =
        (if pl.yellowCards + 1 ≥ 2 then pl.redCards + 1 else pl.redCards) ∧
      (pl.addCard "red").redCards = pl.redCards + 1 ∧
      (pl.addCard "red").yellowCards = pl.yellowCards) ∧
    (((Player.construct "P" "Forward" 5 5 5 25 "Unknown" 0).addCard "yellow").addCard
        "yellow").yellowCards = 0 ∧
    (((Player.construct "P" "Forward" 5 5 5 25 "Unknown" 0).addCard "yellow").addCard
        "yellow").redCards = 1 ∧
    ((Player.construct "P" "Forward" 5 5 5 25 "Unknown" 0).addCard "yellow").yellowCards = 1 ∧
    ((Player.construct "P" "Forward" 5 5 5 25 "Unknown" 0).addCard "yellow").redCards = 0 := by
  refine ⟨fun pl => ?_, by decide, by decide, by decide, by decide⟩
  have h1 : (("yellow" : String) == "yellow") = true := rfl
  have h2 : (("red" : String) == "yellow") = false := rfl
  have h3 : (("red" : String) == "red") = true := rfl
  simp only [Player.addCard, h1, h2, h3, if_true, if_false]
  by_cases h : pl.yellowCards + 1 ≥ 2 <;> simp [h]

/-! ## C9: the yellow tally is always 0 or 1 -/

/-- The invariant maintained by `addCard`: the yellow tally is 0 or 1 and
both tallies are non-negative. -/
def cardInv (pl : Player) : Prop :=
  0 ≤ pl.yellowCards ∧ pl.yellowCards ≤ 1 ∧ 0 ≤ pl.redCards

theorem addCard_preserves_cardInv (pl : Player) (s : String) (h : cardInv pl) :
    cardInv (pl.addCard s) := by
  obtain ⟨h0, h1, h2⟩ := h
  unfold Player.addCard
  by_cases hy : (s == "yellow") = true
  · rw [if_pos hy]
    by_cases hge : pl.yellowCards + 1 ≥ 2
    · rw [if_pos hge]
      exact ⟨le_refl 0, show (0 : Int) ≤ 1 by norm_num,
        show 0 ≤ pl.redCards + 1 by omega⟩
    · rw [if_neg hge]
      exact ⟨show 0 ≤ pl.yellowCards + 1 by omega,
        show pl.yellowCards + 1 ≤ 1 by omega, h2⟩
  · rw [if_neg hy]
    by_cases hr : (s == "red") = true
    · rw [if_pos hr]; exact ⟨h0, h1, show 0 ≤ pl.redCards + 1 by omega⟩
    · rw [if_neg hr]; exact ⟨h0, h1, h2⟩

theorem foldl_addCard_cardInv (cards : List String) :
    ∀ pl : Player, cardInv pl → cardInv (cards.foldl Player.addCard pl) := by
  induction cards with
  | nil => intro pl h; exact h
  | cons c cs ih =>
    intro pl h
    exact ih (pl.addCard c) (addCard_preserves_cardInv pl c h)

/-- C9: from construction, through any sequence of `addCard` calls, the
yellow tally is always 0 or 1 (a second yellow is converted into a red and
the tally reset within the same call), and both tallies stay non-negative. -/
theorem cards_always_small (nm pos : String) (pa sh ps ag : Int) (na : String)
    (jn : Int) (cards : List String) :
    0 ≤ (cards.foldl Player.addCard (Player.construct nm pos pa sh ps ag na jn)).yellowCards ∧
    (cards.foldl Player.addCard (Player.construct nm pos pa sh ps ag na jn)).yellowCards ≤ 1 ∧
    0 ≤ (cards.foldl Player.addCard (Player.construct nm pos pa sh ps ag na jn)).redCards :=
  foldl_addCard_cardInv cards _ ⟨le_refl 0, show (0 : Int) ≤ 1 by norm_num, le_refl 0⟩

/-! ## C4: the derived overall rating -/

/-- Round half-up: the nearest integer, with ties rounding toward `+∞`.
This is exactly JS `Math.round`. -/
def roundHalfUp (q : ℚ) : Int :=
  ⌊q + 1 / 2⌋

/-- The spec's description of the rating: the average of the three skills,
rounded half-up. -/
def specOverallRating (a b c : Int) : Int :=
  roundHalfUp (((a : ℚ) + (b : ℚ) + (c : ℚ)) / 3)

theorem calculateOverallRating_eq_roundHalfUp (a b c : Int) :
    Player.calculateOverallRating a b c = specOverallRating a b c := by
  unfold Player.calculateOverallRating specOverallRating roundHalfUp
  have hcast : ((a : ℚ) + (b : ℚ) + (c : ℚ)) / 3 + 1 / 2 =
      ((2 * (a + b + c) + 3 : Int) : ℚ) / ((6 : ℕ) : ℚ) := by
    push_cast
    ring
  rw [hcast, Rat.floor_intCast_div_natCast, Int.fdiv_eq_ediv _ (by norm_num)]
  rfl

/-- The rating never drifts from its inputs: the stored `overallRating` is
the round-half-up average of the three stored skills. -/
def ratingConsistent (pl : Player) : Prop :=
  pl.overallRating = specOverallRating pl.pace pl.shooting pl.passing

/-- C4: `overallRating` equals the round-half-up average of the stored
skills immediately after construction and after every `updateStats`, and
every other `Player` operation (`addCard`, `setInjuryStatus`) preserves
this consistency, so the stored rating never drifts. -/
theorem overallRating_spec :
    (∀ (nm pos : String) (pa sh ps ag : Int) (na : String) (jn : Int),
      ratingConsistent (Player.construct nm pos pa sh ps ag na jn)) ∧
    (∀ (pl : Player) (a b c : Int), ratingConsistent (pl.updateStats a b c)) ∧
    (∀ (pl : Player) (s : String), ratingConsistent pl → ratingConsistent (pl.addCard s)) ∧
    (∀ (pl : Player) (b : Bool), ratingConsistent pl → ratingConsistent (pl.setInjuryStatus b)) := by
  refine ⟨fun nm pos pa sh ps ag na jn => ?_, fun pl a b c => ?_,
    fun pl s h => ?_, fun pl b h => ?_⟩
  · exact calculateOverallRating_eq_roundHalfUp _ _ _
  · exact calculateOverallRating_eq_roundHalfUp _ _ _
  · unfold ratingConsistent at h ⊢
    simp only [Player.addCard]
    split_ifs <;> simpa using h
  · exact h

theorem overallRating_spec_witness :
    ratingConsistent ((Player.construct "P" "F" 5 7 9 25 "U" 0).addCard "yellow") ∧
    ratingConsistent ((Player.construct "P" "F" 5 7 9 25 "U" 0).setInjuryStatus true) :=
  ⟨overallRating_spec.2.2.1 _ "yellow" (overallRating_spec.1 "P" "F" 5 7 9 25 "U" 0),
   overallRating_spec.2.2.2 _ true (overallRating_spec.1 "P" "F" 5 7 9 25 "U" 0)⟩

/-! ## C7: add/remove round-trip on a roster -/

/-- C7: on a team with no player named like `pl`, `addPlayer pl` followed by
`removePlayer` with that name succeeds and restores the team (in particular
the roster sequence) exactly. -/
theorem addPlayer_removePlayer_roundtrip (t : Team) (pl : Player)
    (h : ∀ q ∈ t.players, q.name ≠ pl.name) :
    ((t.addPlayer pl).2).removePlayer pl.name = (true, t) := by
  have hfind : jsFindIndex (fun q => q.name == pl.name) (t.players ++ [pl]) =
      some t.players.length :=
    jsFindIndex_append_last (by simp)
      (fun x hx => by simpa using h x hx)
  show Team.removePlayer { t with players := t.players ++ [pl] } pl.name = (true, t)
  unfold Team.removePlayer
  rw [hfind]
  simp only
  rw [eraseIdx_append_last]

def samplePlayerA : Player :=
  Player.construct "A" "Forward" 5 6 7 25 "Unknown" 9

def samplePlayerB : Player :=
  Player.construct "B" "Midfielder" 4 4 4 30 "Sweden" 10

def sampleTeamWithA : Team :=
  ((Team.construct "T" "C" "S").addPlayer samplePlayerA).2

theorem addPlayer_removePlayer_roundtrip_witness :
    ((sampleTeamWithA.addPlayer samplePlayerB).2).removePlayer samplePlayerB.name =
      (true, sampleTeamWithA) :=
  addPlayer_removePlayer_roundtrip sampleTeamWithA samplePlayerB (by decide)

/-! ## C2: NotFound leaves the state untouched -/

/-- C2: `recordMatch` with an unresolved team name, `removeTeam` with an
unmatched name, and `removePlayer` with an unmatched name all signal
failure (`false`, the embedding of the source's `NotFound` report) and
return the state completely unchanged — no statistics, roster, membership
or match-log change. -/
theorem notFound_no_state_change :
    (∀ (l : League) (home away : String) (hg ag : Int) (now : Nat),
      l.getTeam home = none ∨ l.getTeam away = none →
      l.recordMatch home away hg ag now = (false, l)) ∧
    (∀ (l : League) (n : String), l.getTeam n = none →
      l.removeTeam n = (false, l)) ∧
    (∀ (t : Team) (n : String), t.getPlayer n = none →
      t.removePlayer n = (false, t)) := by
  refine ⟨fun l home away hg ag now h => ?_, fun l n h => ?_, fun t n h => ?_⟩
  · rcases h with h | h
    · have hn : jsFindIndex (fun t => t.name == home) l.teams = none :=
        jsFindIndex_eq_none_iff.mpr (jsFind_eq_none_iff.mp h)
      cases h2 : jsFindIndex (fun t => t.name == away) l.teams <;>
        simp [League.recordMatch, hn, h2]
    · have hn : jsFindIndex (fun t => t.name == away) l.teams = none :=
        jsFindIndex_eq_none_iff.mpr (jsFind_eq_none_iff.mp h)
      cases h2 : jsFindIndex (fun t => t.name == home) l.teams <;>
        simp [League.recordMatch, hn, h2]
  · have hn : jsFindIndex (fun t => t.name == n) l.teams = none :=
      jsFindIndex_eq_none_iff.mpr (jsFind_eq_none_iff.mp h)
    unfold League.removeTeam
    rw [hn]
  · have hn : jsFindIndex (fun p => p.name == n) t.players = none :=
      jsFindIndex_eq_none_iff.mpr (jsFind_eq_none_iff.mp h)
    unfold Team.removePlayer
    rw [hn]

theorem notFound_no_state_change_witness :
    (League.construct "L" "C").recordMatch "X" "Y" 1 0 0 =
      (false, League.construct "L" "C") ∧
    (League.construct "L" "C").removeTeam "X" = (false, League.construct "L" "C") ∧
    (Team.construct "T" "C" "S").removePlayer "X" = (false, Team.construct "T" "C" "S") :=
  ⟨notFound_no_state_change.1 (League.construct "L" "C") "X" "Y" 1 0 0 (Or.inl rfl),
   notFound_no_state_change.2.1 (League.construct "L" "C") "X" rfl,
   notFound_no_state_change.2.2 (Team.construct "T" "C" "S") "X" rfl⟩

/-! ## recordMatch: the successful path -/

theorem recordMatch_found_components (l : League) (home away : String)
    (hg ag : Int) (now : Nat) (hi ai : Nat)
    (hh : jsFindIndex (fun t => t.name == home) l.teams = some hi)
    (ha : jsFindIndex (fun t => t.name == away) l.teams = some ai) :
    (l.recordMatch home away hg ag now).1 = true ∧
    (l.recordMatch home away hg ag now).2.teams =
      modifyAt (modifyAt l.teams hi
          (fun t => t.updateStats hg ag
            (if hg > ag then 3 else if hg < ag then 0 else 1))) ai
        (fun t => t.updateStats ag hg
          (if hg > ag then 0 else if hg < ag then 3 else 1)) ∧
    (l.recordMatch home away hg ag now).2.«matches» = l.«matches» ++
      [{ homeTeam := home, awayTeam := away, homeGoals := hg, awayGoals := ag,
         date := now }] ∧
    (l.recordMatch home away hg ag now).2.name = l.name ∧
    (l.recordMatch home away hg ag now).2.country = l.country := by
  unfold League.recordMatch
  rw [hh, ha]
  exact ⟨rfl, rfl, rfl, rfl, rfl⟩

/-- C1: when both names resolve (to distinct names), `recordMatch`
succeeds; the home team's statistics gain `homeGoals` for / `awayGoals`
against and 3, 0 or 1 points by the win/loss/draw rule; the away team's
gain the mirrored goals and the complementary points; every other team is
untouched; and exactly one match record is appended to the log. -/
theorem recordMatch_success (l : League) (home away : String) (hg ag : Int)
    (now : Nat) (hi ai : Nat)
    (hne : home ≠ away)
    (hh : jsFindIndex (fun t => t.name == home) l.teams = some hi)
    (ha : jsFindIndex (fun t => t.name == away) l.teams = some ai) :
    (l.recordMatch home away hg ag now).1 = true ∧
    (∃ th, l.teams[hi]? = some th ∧
      (l.recordMatch home away hg ag now).2.teams[hi]? = some { th with
        goalsFor := th.goalsFor + hg
        goalsAgainst := th.goalsAgainst + ag
        points := th.points + (if hg > ag then 3 else if hg < ag then 0 else 1) }) ∧
    (∃ ta, l.teams[ai]? = some ta ∧
      (l.recordMatch home away hg ag now).2.teams[ai]? = some { ta with
        goalsFor := ta.goalsFor + ag
        goalsAgainst := ta.goalsAgainst + hg
        points := ta.points + (if hg > ag then 0 else if hg < ag then 3 else 1) }) ∧
    (∀ j, j ≠ hi → j ≠ ai →
      (l.recordMatch home away hg ag now).2.teams[j]? = l.teams[j]?) ∧
    (l.recordMatch home away hg ag now).2.«matches» = l.«matches» ++
      [{ homeTeam := home, awayTeam := away, homeGoals := hg, awayGoals := ag,
         date := now }] ∧
    (l.recordMatch home away hg ag now).2.teams.length = l.teams.length := by
  have hia : hi ≠ ai := by
    intro hEq
    obtain ⟨x, hx, hpx⟩ := jsFindIndex_some_getElem hh
    obtain ⟨y, hy, hpy⟩ := jsFindIndex_some_getElem ha
    rw [hEq] at hx
    rw [hx] at hy
    obtain rfl := Option.some.inj hy
    exact hne ((eq_of_beq hpx).symm.trans (eq_of_beq hpy))
  obtain ⟨hb, hteams, hmatches, _, _⟩ :=
    recordMatch_found_components l home away hg ag now hi ai hh ha
  obtain ⟨th, hth, hthp⟩ := jsFindIndex_some_getElem hh
  obtain ⟨ta, hta, htap⟩ := jsFindIndex_some_getElem ha
  refine ⟨hb, ⟨th, hth, ?_⟩, ⟨ta, hta, ?_⟩, ?_, hmatches, ?_⟩
  · rw [hteams, getElem?_modifyAt_ne _ _ _ _ (Ne.symm hia),
      getElem?_modifyAt_self, hth]
    rfl
  · rw [hteams, getElem?_modifyAt_self,
      getElem?_modifyAt_ne _ _ _ _ hia, hta]
    rfl
  · intro j h1 h2
    rw [hteams, getElem?_modifyAt_ne _ _ _ _ (Ne.symm h2),
      getElem?_modifyAt_ne _ _ _ _ (Ne.symm h1)]
  · rw [hteams, length_modifyAt, length_modifyAt]

def teamA : Team := Team.construct "A" "CityA" "StadA"

def teamB : Team := Team.construct "B" "CityB" "StadB"

def sampleLeague : League :=
  { name := "L", country := "C", teams := [teamA, teamB], «matches» := [] }

theorem recordMatch_success_witness :
    (sampleLeague.recordMatch "A" "B" 3 1 0).1 = true ∧
    (∃ th, sampleLeague.teams[0]? = some th ∧
      (sampleLeague.recordMatch "A" "B" 3 1 0).2.teams[0]? = some { th with
        goalsFor := th.goalsFor + 3
        goalsAgainst := th.goalsAgainst + 1
        points := th.points +
          (if (3 : Int) > 1 then 3 else if (3 : Int) < 1 then 0 else 1) }) ∧
    (∃ ta, sampleLeague.teams[1]? = some ta ∧
      (sampleLeague.recordMatch "A" "B" 3 1 0).2.teams[1]? = some { ta with
        goalsFor := ta.goalsFor + 1
        goalsAgainst := ta.goalsAgainst + 3
        points := ta.points +
          (if (3 : Int) > 1 then 0 else if (3 : Int) < 1 then 3 else 1) }) ∧
    (∀ j, j ≠ 0 → j ≠ 1 →
      (sampleLeague.recordMatch "A" "B" 3 1 0).2.teams[j]? = sampleLeague.teams[j]?) ∧
    (sampleLeague.recordMatch "A" "B" 3 1 0).2.«matches» = sampleLeague.«matches» ++
      [{ homeTeam := "A", awayTeam := "B", homeGoals := 3, awayGoals := 1,
         date := 0 }] ∧
    (sampleLeague.recordMatch "A" "B" 3 1 0).2.teams.length =
      sampleLeague.teams.length :=
  recordMatch_success sampleLeague "A" "B" 3 1 0 0 1 (by decide) (by decide) (by decide)

/-! ## C10: a self-match applies both updates to the one team -/

/-- C10: `recordMatch` with the same resolving name as both home and away
succeeds; the single team receives both stat updates (goals for and
against each grow by `homeGoals + awayGoals`, points by the sum of the two
awards), other teams are untouched, and one match record is appended. -/
theorem recordMatch_self (l : League) (n : String) (hg ag : Int) (now : Nat)
    (i : Nat) (h : jsFindIndex (fun t => t.name == n) l.teams = some i) :
    (l.recordMatch n n hg ag now).1 = true ∧
    (∃ t, l.teams[i]? = some t ∧
      (l.recordMatch n n hg ag now).2.teams[i]? = some { t with
        goalsFor := t.goalsFor + hg + ag
        goalsAgainst := t.goalsAgainst + ag + hg
        points := t.points + (if hg > ag then 3 else if hg < ag then 0 else 1)
          + (if hg > ag then 0 else if hg < ag then 3 else 1) }) ∧
    (∀ j, j ≠ i → (l.recordMatch n n hg ag now).2.teams[j]? = l.teams[j]?) ∧
    (l.recordMatch n n hg ag now).2.«matches» = l.«matches» ++
      [{ homeTeam := n, awayTeam := n, homeGoals := hg, awayGoals := ag,
         date := now }] ∧
    (l.recordMatch n n hg ag now).2.teams.length = l.teams.length := by
  obtain ⟨hb, hteams, hmatches, _, _⟩ :=
    recordMatch_found_components l n n hg ag now i i h h
  obtain ⟨t, ht, htp⟩ := jsFindIndex_some_getElem h
  refine ⟨hb, ⟨t, ht, ?_⟩, ?_, hmatches, ?_⟩
  · rw [hteams, getElem?_modifyAt_self, getElem?_modifyAt_self, ht]
    rfl
  · intro j hj
    rw [hteams, getElem?_modifyAt_ne _ _ _ _ (Ne.symm hj),
      getElem?_modifyAt_ne _ _ _ _ (Ne.symm hj)]
  · rw [hteams, length_modifyAt, length_modifyAt]

theorem recordMatch_self_witness :
    (sampleLeague.recordMatch "A" "A" 2 2 0).1 = true ∧
    (∃ t, sampleLeague.teams[0]? = some t ∧
      (sampleLeague.recordMatch "A" "A" 2 2 0).2.teams[0]? = some { t with
        goalsFor := t.goalsFor + 2 + 2
        goalsAgainst := t.goalsAgainst + 2 + 2
        points := t.points +
          (if (2 : Int) > 2 then 3 else if (2 : Int) < 2 then 0 else 1) +
          (if (2 : Int) > 2 then 0 else if (2 : Int) < 2 then 3 else 1) }) ∧
    (∀ j, j ≠ 0 →
      (sampleLeague.recordMatch "A" "A" 2 2 0).2.teams[j]? = sampleLeague.teams[j]?) ∧
    (sampleLeague.recordMatch "A" "A" 2 2 0).2.«matches» = sampleLeague.«matches» ++
      [{ homeTeam := "A", awayTeam := "A", homeGoals := 2, awayGoals := 2,
         date := 0 }] ∧
    (sampleLeague.recordMatch "A" "A" 2 2 0).2.teams.length =
      sampleLeague.teams.length :=
  recordMatch_self sampleLeague "A" 2 2 0 0 (by decide)

/-! ## C3: the standings are the stable descending sort of the snapshots -/

theorem standingsCompare_le_zero_iff (a b : TeamInfo) :
    standingsCompare a b ≤ 0 ↔
      (b.stats.points < a.stats.points ∨
        (a.stats.points = b.stats.points ∧
          b.stats.goalDifference ≤ a.stats.goalDifference)) := by
  unfold standingsCompare
  by_cases h : b.stats.points ≠ a.stats.points
  · rw [if_pos h]
    omega
  · rw [if_neg h]
    omega

instance : IsTotal TeamInfo standingsLE :=
  ⟨fun a b => by
    unfold standingsLE
    rw [standingsCompare_le_zero_iff, standingsCompare_le_zero_iff]
    omega⟩

instance : IsTrans TeamInfo standingsLE :=
  ⟨fun a b c hab hbc => by
    unfold standingsLE at hab hbc ⊢
    rw [standingsCompare_le_zero_iff] at hab hbc ⊢
    omega⟩

/-- The sort key of the standings comparator: points and goal difference. -/
def standingsKey (x : TeamInfo) : Int × Int :=
  (x.stats.points, x.stats.goalDifference)

theorem not_standingsLE_key_ne {a b : TeamInfo} (h : ¬ standingsLE a b) :
    standingsKey a ≠ standingsKey b := by
  intro hk
  apply h
  have h1 : a.stats.points = b.stats.points := congrArg Prod.fst hk
  have h2 : a.stats.goalDifference = b.stats.goalDifference := congrArg Prod.snd hk
  unfold standingsLE
  rw [standingsCompare_le_zero_iff]
  omega

theorem filter_orderedInsert_of_key_ne (x : TeamInfo) (v : Int × Int)
    (hx : standingsKey x ≠ v) :
    ∀ l : List TeamInfo,
      (List.orderedInsert standingsLE x l).filter
          (fun y => decide (standingsKey y = v)) =
        l.filter (fun y => decide (standingsKey y = v)) := by
  intro l
  induction l with
  | nil => simp [hx]
  | cons y ys ih =>
    by_cases hle : standingsLE x y
    · simp only [List.orderedInsert, if_pos hle]
      simp [List.filter_cons, hx]
    · simp only [List.orderedInsert, if_neg hle]
      simp [List.filter_cons, ih]

theorem filter_orderedInsert_key_self (x : TeamInfo) :
    ∀ l : List TeamInfo,
      (List.orderedInsert standingsLE x l).filter
          (fun y => decide (standingsKey y = standingsKey x)) =
        x :: l.filter (fun y => decide (standingsKey y = standingsKey x)) := by
  intro l
  induction l with
  | nil => simp
  | cons y ys ih =>
    by_cases hle : standingsLE x y
    · simp only [List.orderedInsert, if_pos hle]
      simp [List.filter_cons]
    · have hkey : standingsKey y ≠ standingsKey x :=
        Ne.symm (not_standingsLE_key_ne hle)
      simp only [List.orderedInsert, if_neg hle]
      simp [List.filter_cons, hkey, ih]

theorem filter_insertionSort_key (v : Int × Int) :
    ∀ l : List TeamInfo,
      (List.insertionSort standingsLE l).filter
          (fun y => decide (standingsKey y = v)) =
        l.filter (fun y => decide (standingsKey y = v)) := by
  intro l
  induction l with
  | nil => rfl
  | cons x xs ih =>
    simp only [List.insertionSort]
    by_cases hx : standingsKey x = v
    · subst hx
      rw [filter_orderedInsert_key_self, ih]
      simp [List.filter_cons]
    · rw [filter_orderedInsert_of_key_ne x v hx, ih]
      simp [List.filter_cons, hx]

/-- C3: `getStandings` returns exactly the team snapshots (a permutation of
them), sorted by points descending with ties broken by goal difference
descending, and the sort is stable: teams equal in both keys keep their
relative insertion order (for every key value, filtering the output by that
key gives the same sequence as filtering the input). -/
theorem getStandings_spec (l : League) :
    List.Perm l.getStandings (l.teams.map Team.getTeamInfo) ∧
    l.getStandings.Pairwise (fun a b =>
      b.stats.points < a.stats.points ∨
        (a.stats.points = b.stats.points ∧
          b.stats.goalDifference ≤ a.stats.goalDifference)) ∧
    (∀ v : Int × Int,
      l.getStandings.filter (fun y => decide (standingsKey y = v)) =
        (l.teams.map Team.getTeamInfo).filter
          (fun y => decide (standingsKey y = v))) := by
  unfold League.getStandings
  refine ⟨List.perm_insertionSort _ _, ?_, fun v => filter_insertionSort_key v _⟩
  have hs := List.sorted_insertionSort standingsLE (l.teams.map Team.getTeamInfo)
  exact List.Pairwise.imp (fun hab => (standingsCompare_le_zero_iff _ _).mp hab) hs

/-! ## C8: which operations can change team statistics and their totals -/

/-- Total points over all teams currently in the league. -/
def totalPoints (l : League) : Int :=
  (l.teams.map Team.points).sum

/-- Total goals scored over all teams currently in the league. -/
def totalGoalsFor (l : League) : Int :=
  (l.teams.map Team.goalsFor).sum

/-- Total goals conceded over all teams currently in the league. -/
def totalGoalsAgainst (l : League) : Int :=
  (l.teams.map Team.goalsAgainst).sum

/-- C8 counterexample: an operation other than `recordMatch` can change
the league-wide totals.  After "A" beats "B" 2-0 the total points are 3;
`removeTeam "A"` (not `recordMatch`) drops them to 0. -/
theorem removeTeam_changes_totals :
    totalPoints (((sampleLeague.recordMatch "A" "B" 2 0 0).2.removeTeam "A").2) ≠
      totalPoints ((sampleLeague.recordMatch "A" "B" 2 0 0).2) := by
  decide

theorem sum_map_eraseIdx (f : α → Int) :
    ∀ (xs : List α) (i : Nat) (x : α), xs[i]? = some x →
      ((xs.eraseIdx i).map f).sum = (xs.map f).sum - f x := by
  intro xs
  induction xs with
  | nil => intro i x h; simp at h
  | cons y ys ih =>
    intro i x h
    cases i with
    | zero =>
      obtain rfl : y = x := Option.some.inj (by simpa using h)
      simp [List.eraseIdx]
    | succ j =>
      have h' : ys[j]? = some x := by simpa using h
      simp [List.eraseIdx, ih j x h']
      omega

/-- C8 (amended): no operation other than `recordMatch` mutates any team's
`points`, `goalsFor` or `goalsAgainst` field — roster operations and
player-level mutations inside the roster leave them identical, and
`addTeam`/`removeTeam` only move whole, unmodified teams in and out of the
membership — but the totals summed over the league's current members are
unchanged only by the membership-preserving operations: `addTeam` grows
them by exactly the added team's statistics and a successful `removeTeam`
shrinks them by exactly the removed team's. -/
theorem stats_frame :
    (∀ (t : Team) (p : Player),
      ((t.addPlayer p).2).points = t.points ∧
      ((t.addPlayer p).2).goalsFor = t.goalsFor ∧
      ((t.addPlayer p).2).goalsAgainst = t.goalsAgainst) ∧
    (∀ (t : Team) (n : String),
      ((t.removePlayer n).2).points = t.points ∧
      ((t.removePlayer n).2).goalsFor = t.goalsFor ∧
      ((t.removePlayer n).2).goalsAgainst = t.goalsAgainst) ∧
    (∀ (t : Team) (i : Nat) (f : Player → Player),
      ({ t with players := modifyAt t.players i f } : Team).points = t.points ∧
      ({ t with players := modifyAt t.players i f } : Team).goalsFor = t.goalsFor ∧
      ({ t with players := modifyAt t.players i f } : Team).goalsAgainst =
        t.goalsAgainst) ∧
    (∀ (l : League) (t : Team),
      ((l.addTeam t).2).teams = l.teams ++ [t] ∧
      totalPoints (l.addTeam t).2 = totalPoints l + t.points ∧
      totalGoalsFor (l.addTeam t).2 = totalGoalsFor l + t.goalsFor ∧
      totalGoalsAgainst (l.addTeam t).2 = totalGoalsAgainst l + t.goalsAgainst) ∧
    (∀ (l : League) (n : String) (i : Nat) (t : Team),
      jsFindIndex (fun t => t.name == n) l.teams = some i →
      l.teams[i]? = some t →
      ((l.removeTeam n).2).teams = l.teams.eraseIdx i ∧
      totalPoints (l.removeTeam n).2 = totalPoints l - t.points ∧
      totalGoalsFor (l.removeTeam n).2 = totalGoalsFor l - t.goalsFor ∧
      totalGoalsAgainst (l.removeTeam n).2 = totalGoalsAgainst l - t.goalsAgainst) := by
  refine ⟨fun t p => ⟨rfl, rfl, rfl⟩, fun t n => ?_, fun t i f => ⟨rfl, rfl, rfl⟩,
    fun l t => ⟨rfl, ?_, ?_, ?_⟩, fun l n i t hfind hget => ?_⟩
  · unfold Team.removePlayer
    cases h : jsFindIndex (fun p => p.name == n) t.players <;>
      exact ⟨rfl, rfl, rfl⟩
  · simp [totalPoints, League.addTeam]
  · simp [totalGoalsFor, League.addTeam]
  · simp [totalGoalsAgainst, League.addTeam]
  · unfold League.removeTeam
    rw [hfind]
    refine ⟨rfl, ?_, ?_, ?_⟩
    · simpa [totalPoints] using sum_map_eraseIdx Team.points l.teams i t hget
    · simpa [totalGoalsFor] using sum_map_eraseIdx Team.goalsFor l.teams i t hget
    · simpa [totalGoalsAgainst] using sum_map_eraseIdx Team.goalsAgainst l.teams i t hget

theorem stats_frame_witness :
    ((sampleLeague.removeTeam "A").2).teams = sampleLeague.teams.eraseIdx 0 ∧
    totalPoints (sampleLeague.removeTeam "A").2 = totalPoints sampleLeague - teamA.points ∧
    totalGoalsFor (sampleLeague.removeTeam "A").2 =
      totalGoalsFor sampleLeague - teamA.goalsFor ∧
    totalGoalsAgainst (sampleLeague.removeTeam "A").2 =
      totalGoalsAgainst sampleLeague - teamA.goalsAgainst :=
  stats_frame.2.2.2.2 sampleLeague "A" 0 teamA (by decide) (by decide)
